import Mathlib

/-!
Verification of the rspace-online real-time sync relay
(`src/server/community-store.ts` and the server entry point).

JavaScript `Map`s are embedded as insertion-ordered association lists over
`String` keys.  The external CRDT merge library (Automerge) is embedded as an
opaque capability record `MergeLib`, exactly the capability set the relay is
written against; all theorems hold for every instance of that record.
The mutable module-level state of the store is gathered in `StoreState` and
every store function is translated as an explicit state-passing function.
-/

set_option maxHeartbeats 1000000

/-! ## Association-list model of JavaScript `Map` -/

def mapHas {β : Type} (m : List (String × β)) (k : String) : Bool :=
  m.any (fun p => p.1 == k)

def mapGet {β : Type} (m : List (String × β)) (k : String) : Option β :=
  (m.find? (fun p => p.1 == k)).map (fun p => p.2)

/-- `Map.set` semantics: update the entry in place when the key is present,
append a fresh entry otherwise. -/
def mapSet {β : Type} (m : List (String × β)) (k : String) (v : β) :
    List (String × β) :=
  if mapHas m k then m.map (fun p => if p.1 == k then (k, v) else p)
  else m ++ [(k, v)]

def mapDelete {β : Type} (m : List (String × β)) (k : String) :
    List (String × β) :=
  m.filter (fun p => p.1 != k)

theorem beqF {a b : String} (h : a ≠ b) : (a == b) = false := by
  by_contra hc
  exact h (eq_of_beq (by simpa using hc))

@[simp] theorem mapGet_nil {β : Type} (k : String) :
    mapGet ([] : List (String × β)) k = none := rfl

@[simp] theorem mapHas_nil {β : Type} (k : String) :
    mapHas ([] : List (String × β)) k = false := rfl

@[simp] theorem mapGet_cons {β : Type} (p : String × β) (t : List (String × β))
    (k : String) :
    mapGet (p :: t) k = if p.1 == k then some p.2 else mapGet t k := by
  by_cases h : p.1 = k
  · simp [mapGet, List.find?_cons, h]
  · simp [mapGet, List.find?_cons, h, beqF h]

@[simp] theorem mapHas_cons {β : Type} (p : String × β) (t : List (String × β))
    (k : String) :
    mapHas (p :: t) k = (p.1 == k || mapHas t k) := by
  simp [mapHas]

theorem mapHas_eq_isSome_mapGet {β : Type} (m : List (String × β)) (k : String) :
    mapHas m k = (mapGet m k).isSome := by
  induction m with
  | nil => rfl
  | cons p t ih =>
    by_cases h : p.1 = k <;> simp [h, ih]

theorem mapGet_append {β : Type} (m m' : List (String × β)) (k : String) :
    mapGet (m ++ m') k = if mapHas m k then mapGet m k else mapGet m' k := by
  induction m with
  | nil => simp
  | cons p t ih =>
    by_cases h : p.1 = k <;> simp [h, ih]

theorem mapGet_map_upd_self {β : Type} (m : List (String × β)) (k : String) (v : β) :
    mapGet (m.map (fun p => if p.1 == k then (k, v) else p)) k =
      (mapGet m k).map (fun _ => v) := by
  induction m with
  | nil => rfl
  | cons p t ih =>
    simp at ih
    by_cases h : p.1 = k
    · simp [h, ih]
    · simp [h, ih]

theorem mapGet_map_upd_ne {β : Type} (m : List (String × β)) (k k' : String) (v : β)
    (hne : k' ≠ k) :
    mapGet (m.map (fun p => if p.1 == k then (k, v) else p)) k' = mapGet m k' := by
  induction m with
  | nil => rfl
  | cons p t ih =>
    simp at ih
    by_cases h : p.1 = k
    · simp [h, Ne.symm hne, ih]
    · simp [h, ih]

theorem mapHas_map_upd {β : Type} (m : List (String × β)) (k k' : String) (v : β) :
    mapHas (m.map (fun p => if p.1 == k then (k, v) else p)) k' = mapHas m k' := by
  by_cases hk : k' = k
  · subst hk
    rw [mapHas_eq_isSome_mapGet, mapHas_eq_isSome_mapGet, mapGet_map_upd_self]
    cases mapGet m k' <;> rfl
  · rw [mapHas_eq_isSome_mapGet, mapHas_eq_isSome_mapGet, mapGet_map_upd_ne m k k' v hk]

theorem mapGet_set_self {β : Type} (m : List (String × β)) (k : String) (v : β) :
    mapGet (mapSet m k v) k = some v := by
  unfold mapSet
  by_cases hm : mapHas m k
  · rw [if_pos hm, mapGet_map_upd_self]
    rw [mapHas_eq_isSome_mapGet] at hm
    obtain ⟨w, hw⟩ := Option.isSome_iff_exists.mp hm
    simp [hw]
  · rw [if_neg hm, mapGet_append, if_neg hm]
    simp

theorem mapGet_set_ne {β : Type} (m : List (String × β)) (k k' : String) (v : β)
    (h : k' ≠ k) : mapGet (mapSet m k v) k' = mapGet m k' := by
  unfold mapSet
  by_cases hm : mapHas m k
  · rw [if_pos hm, mapGet_map_upd_ne m k k' v h]
  · rw [if_neg hm, mapGet_append]
    by_cases hm' : mapHas m k'
    · rw [if_pos hm']
    · rw [if_neg hm']
      rw [mapHas_eq_isSome_mapGet] at hm'
      have hg : mapGet m k' = none := by
        cases hg : mapGet m k' <;> simp [hg] at hm' ⊢
      rw [hg]
      simp [Ne.symm h]

theorem mapHas_set {β : Type} (m : List (String × β)) (k k' : String) (v : β) :
    mapHas (mapSet m k v) k' = (mapHas m k' || (k == k')) := by
  by_cases hk : k' = k
  · subst hk
    rw [mapHas_eq_isSome_mapGet, mapGet_set_self]
    simp
  · rw [mapHas_eq_isSome_mapGet, mapGet_set_ne m k k' v hk,
      ← mapHas_eq_isSome_mapGet, beqF (Ne.symm hk)]
    simp

theorem mapSet_mapSet {β : Type} (m : List (String × β)) (k : String) (v w : β) :
    mapSet (mapSet m k v) k w = mapSet m k w := by
  unfold mapSet
  by_cases hm : mapHas m k
  · have h1 : mapHas (m.map (fun p => if p.1 == k then (k, v) else p)) k := by
      rw [mapHas_map_upd]; exact hm
    rw [if_pos hm, if_pos hm, if_pos h1, List.map_map]
    apply List.map_congr_left
    intro p _
    by_cases hp : p.1 = k
    · simp [hp]
    · simp [hp]
  · have h1 : mapHas (m ++ [(k, v)]) k := by
      unfold mapHas
      rw [List.any_append]
      simp [mapHas]
    rw [if_neg hm, if_neg hm, if_pos h1, List.map_append]
    have hmap : m.map (fun p => if p.1 == k then (k, w) else p) = m := by
      conv_rhs => rw [← List.map_id m]
      apply List.map_congr_left
      intro p hp
      have hne : p.1 ≠ k := by
        intro hc
        apply hm
        unfold mapHas
        simp only [List.any_eq_true]
        exact ⟨p, hp, by simp [hc]⟩
      simp [hne]
    rw [hmap]
    simp

@[simp] theorem mapDelete_nil {β : Type} (k : String) :
    mapDelete ([] : List (String × β)) k = [] := rfl

@[simp] theorem mapDelete_cons {β : Type} (p : String × β) (t : List (String × β))
    (k : String) :
    mapDelete (p :: t) k =
      if p.1 == k then mapDelete t k else p :: mapDelete t k := by
  by_cases h : p.1 = k
  · simp [mapDelete, List.filter_cons, h]
  · simp [mapDelete, List.filter_cons, h, beqF h]

theorem mapGet_delete_self {β : Type} (m : List (String × β)) (k : String) :
    mapGet (mapDelete m k) k = none := by
  induction m with
  | nil => rfl
  | cons p t ih =>
    by_cases h : p.1 = k <;> simp [h, ih]

theorem mapGet_delete_ne {β : Type} (m : List (String × β)) (k k' : String)
    (h : k' ≠ k) : mapGet (mapDelete m k) k' = mapGet m k' := by
  induction m with
  | nil => rfl
  | cons p t ih =>
    by_cases hp : p.1 = k
    · simp [hp, Ne.symm h, ih]
    · simp [hp, ih]

theorem mapDelete_of_get_none {β : Type} (m : List (String × β)) (k : String)
    (h : mapGet m k = none) : mapDelete m k = m := by
  induction m with
  | nil => rfl
  | cons p t ih =>
    by_cases hp : p.1 = k
    · simp [hp] at h
    · simp only [mapGet_cons, beqF hp, if_neg, Bool.false_eq_true, ite_false] at h
      simp [hp, ih h]

theorem mapDelete_mapDelete {β : Type} (m : List (String × β)) (k : String) :
    mapDelete (mapDelete m k) k = mapDelete m k := by
  induction m with
  | nil => rfl
  | cons p t ih =>
    by_cases hp : p.1 = k <;> simp [hp, ih]

theorem mapGet_mem_eq {β : Type} (m : List (String × β)) (k : String) (v : β)
    (hw : m.Pairwise (fun a b => a.1 ≠ b.1)) (h : mapGet m k = some v) :
    ∀ p ∈ m, p.1 = k → p = (k, v) := by
  induction m with
  | nil =>
    intro p hp
    simp at hp
  | cons q t ih =>
    intro p hp hpk
    rcases List.mem_cons.mp hp with hq | hq
    · subst hq
      simp only [mapGet_cons, hpk] at h
      simp only [beq_self_eq_true, if_pos] at h
      cases p
      simp_all
    · have hqk : q.1 ≠ k := by
        intro hc
        exact ((List.pairwise_cons.mp hw).1 p hq) (hc.trans hpk.symm)
      exact ih (List.pairwise_cons.mp hw).2 (by simpa [beqF hqk] using h) p hq hpk

theorem mapSet_of_get_eq {β : Type} (m : List (String × β)) (k : String) (v : β)
    (hw : m.Pairwise (fun a b => a.1 ≠ b.1)) (h : mapGet m k = some v) :
    mapSet m k v = m := by
  unfold mapSet
  have hm : mapHas m k := by
    rw [mapHas_eq_isSome_mapGet, h]; rfl
  rw [if_pos hm]
  conv_rhs => rw [← List.map_id m]
  apply List.map_congr_left
  intro p hp
  by_cases hpk : p.1 = k
  · have hv : p = (k, v) := mapGet_mem_eq m k v hw h p hp hpk
    simp [hpk, hv]
  · simp [hpk]

/-! ## Data model (`src/server/community-store.ts`, Automerge version) -/

structure CommunityMeta where
  name : String
  slug : String
  createdAt : String
deriving DecidableEq, Repr

structure ShapeData where
  type : String
  id : String
  x : Int
  y : Int
  width : Int
  height : Int
  rotation : Int
  content : Option String
  sourceId : Option String
  targetId : Option String
deriving DecidableEq, Repr

/-- The materialized value of a community document.  `shapes` is a JavaScript
object keyed by shape id, embedded as an insertion-ordered association list. -/
structure CommunityDoc where
  meta : CommunityMeta
  shapes : List (String × ShapeData)
deriving DecidableEq, Repr

/-- The capability set of the external CRDT merge library (`Automerge`), as
used by the store: `init`, `load`, `save`, `change`, `initSyncState`,
`receiveSyncMessage` and `generateSyncMessage`.  `Doc` is the opaque replica
type, `Cursor` the opaque per-peer sync state, `Patch` the opaque patch type.
`load` returns `none` where the real library would throw.
`receiveSync` returns the updated doc, updated sync state, and the optional
patch record (whose list of patches describes what changed); `generateSync`
returns the advanced sync state and the optional outbound message. -/
structure MergeLib (Doc Cursor Patch : Type) where
  initDoc : Doc
  initSyncState : Cursor
  load : List Nat → Option Doc
  save : Doc → List Nat
  change : Doc → String → (CommunityDoc → CommunityDoc) → Doc
  receiveSync : Doc → Cursor → List Nat → Doc × Cursor × Option (List Patch)
  generateSync : Doc → Cursor → Cursor × Option (List Nat)

/-- Per-peer sync state (`interface PeerState`). -/
structure PeerState (Cursor : Type) where
  syncState : Cursor
  lastActivity : Nat
deriving DecidableEq, Repr

/-- A pending `setTimeout` handle armed by the debounced save. -/
structure PendingTimer where
  id : Nat
  slug : String
  delayMs : Nat
deriving DecidableEq, Repr

/-- The module-level mutable state of `community-store.ts` plus the relevant
durable-storage contents: the `communities` cache, the `peerSyncStates`
table, the `saveTimers` map, the set of armed timers (with a fresh-id
counter), and the `<slug>.automerge` / `<slug>.json` files on disk. -/
structure StoreState (Doc Cursor : Type) where
  communities : List (String × Doc)
  peerSyncStates : List (String × List (String × PeerState Cursor))
  saveTimers : List (String × Nat)
  pendingTimers : List PendingTimer
  nextTimerId : Nat
  storageAutomerge : List (String × List Nat)
  storageJson : List (String × CommunityDoc)
deriving DecidableEq, Repr

/-! ## Store operations -/

/-- The debounce quiet period of `saveCommunity` (`setTimeout(..., 2000)`). -/
def saveDebounceMs : Nat := 2000

/-- The `clearTimeout(existingTimer)` step of `saveCommunity`: disarm the
timer recorded in `saveTimers` for this slug, if any. -/
def clearedPending {Doc Cursor : Type} (st : StoreState Doc Cursor)
    (slug : String) : List PendingTimer :=
  match mapGet st.saveTimers slug with
  | some t => st.pendingTimers.filter (fun p => p.id ≠ t)
  | none => st.pendingTimers

/-- `saveCommunity(slug)`: debounced persistence.  If the document is not
resident this is a no-op; otherwise the existing timer for the slug is
cleared and a single fresh timer with a 2000 ms delay is armed.  The actual
serialization happens in the timer callback, modelled by `fireSaveTimer`. -/
def saveCommunity {Doc Cursor : Type} (st : StoreState Doc Cursor)
    (slug : String) : StoreState Doc Cursor :=
  match mapGet st.communities slug with
  | none => st
  | some _ =>
    { st with
      pendingTimers :=
        clearedPending st slug ++ [⟨st.nextTimerId, slug, saveDebounceMs⟩],
      saveTimers := mapSet st.saveTimers slug st.nextTimerId,
      nextTimerId := st.nextTimerId + 1 }

/-- The timer callback of `saveCommunity`, run when the armed timer `tid`
fires: the timer is consumed, the *current* cached replica is read, and its
canonical binary encoding is written to `<slug>.automerge`.  A cleared or
already-fired timer id never fires. -/
def fireSaveTimer {Doc Cursor Patch : Type} (lib : MergeLib Doc Cursor Patch)
    (st : StoreState Doc Cursor) (tid : Nat) : StoreState Doc Cursor :=
  match st.pendingTimers.find? (fun p => p.id == tid) with
  | none => st
  | some t =>
    let st1 := { st with pendingTimers := st.pendingTimers.filter (fun p => p.id ≠ tid) }
    match mapGet st1.communities t.slug with
    | none => st1
    | some doc =>
      { st1 with storageAutomerge := mapSet st1.storageAutomerge t.slug (lib.save doc) }

/-- `jsonToAutomerge(data)`: convert a legacy plain-object record into a
replica by a single "Import from JSON" change on a fresh document. -/
def jsonToAutomerge {Doc Cursor Patch : Type} (lib : MergeLib Doc Cursor Patch)
    (data : CommunityDoc) : Doc :=
  lib.change lib.initDoc "Import from JSON"
    (fun _ =>
      ⟨data.meta, data.shapes.foldl (fun acc e => mapSet acc e.1 e.2) []⟩)

/-- `loadCommunity(slug)`: cache first, then the canonical `.automerge`
binary, then the legacy `.json` record (migrated through `jsonToAutomerge`
and re-persisted via the debounced save), else `null`.  A binary record that
fails to deserialize falls through to the legacy path. -/
def loadCommunity {Doc Cursor Patch : Type} (lib : MergeLib Doc Cursor Patch)
    (st : StoreState Doc Cursor) (slug : String) :
    Option Doc × StoreState Doc Cursor :=
  match mapGet st.communities slug with
  | some doc => (some doc, st)
  | none =>
    let binTry : Option Doc :=
      match mapGet st.storageAutomerge slug with
      | some buffer => lib.load buffer
      | none => none
    match binTry with
    | some doc =>
      (some doc, { st with communities := mapSet st.communities slug doc })
    | none =>
      match mapGet st.storageJson slug with
      | some data =>
        let doc := jsonToAutomerge lib data
        let st1 := { st with communities := mapSet st.communities slug doc }
        (some doc, saveCommunity st1 slug)
      | none => (none, st)

/-- The change message and mutator of `createCommunity`. -/
def createDoc {Doc Cursor Patch : Type} (lib : MergeLib Doc Cursor Patch)
    (name slug nowISO : String) : Doc :=
  lib.change lib.initDoc "Create community"
    (fun _ => ⟨⟨name, slug, nowISO⟩, []⟩)

/-- `createCommunity(name, slug)`: build an empty document carrying the
metadata, register it in the cache, and schedule a (debounced) persistence
write.  `nowISO` stands for `new Date().toISOString()`. -/
def createCommunity {Doc Cursor Patch : Type} (lib : MergeLib Doc Cursor Patch)
    (st : StoreState Doc Cursor) (name slug nowISO : String) :
    Doc × StoreState Doc Cursor :=
  let doc := createDoc lib name slug nowISO
  let st1 := { st with communities := mapSet st.communities slug doc }
  (doc, saveCommunity st1 slug)

/-- `communityExists(slug)`: resident in memory, or a durable record in
either canonical or legacy form. -/
def communityExists {Doc Cursor : Type} (st : StoreState Doc Cursor)
    (slug : String) : Bool :=
  mapHas st.communities slug || (mapHas st.storageAutomerge slug
    || mapHas st.storageJson slug)

/-! ## Peer sync-state table -/

/-- `getPeerSyncState(slug, peerId)`: get-or-create the per-(document, peer)
sync state, always refreshing `lastActivity`; a missing entry is created with
a fresh `Automerge.initSyncState()` cursor.  `now` stands for `Date.now()`.
Returns the (refreshed) peer state together with the updated store. -/
def getPeerSyncState {Doc Cursor Patch : Type} (lib : MergeLib Doc Cursor Patch)
    (st : StoreState Doc Cursor) (slug peerId : String) (now : Nat) :
    PeerState Cursor × StoreState Doc Cursor :=
  let communityPeers := (mapGet st.peerSyncStates slug).getD []
  let ps : PeerState Cursor :=
    match mapGet communityPeers peerId with
    | some p => { p with lastActivity := now }
    | none => { syncState := lib.initSyncState, lastActivity := now }
  (ps,
    { st with
      peerSyncStates :=
        mapSet st.peerSyncStates slug (mapSet communityPeers peerId ps) })

/-- An in-place mutation of the peer-state object aliased from the table
(e.g. `peerState.syncState = newSyncState`). -/
def setPeerState {Doc Cursor : Type} (st : StoreState Doc Cursor)
    (slug peerId : String) (ps : PeerState Cursor) : StoreState Doc Cursor :=
  let communityPeers := (mapGet st.peerSyncStates slug).getD []
  { st with
    peerSyncStates :=
      mapSet st.peerSyncStates slug (mapSet communityPeers peerId ps) }

/-- `removePeerSyncState(slug, peerId)`: delete the peer's entry; when the
per-document collection becomes empty, drop the collection itself. -/
def removePeerSyncState {Doc Cursor : Type} (st : StoreState Doc Cursor)
    (slug peerId : String) : StoreState Doc Cursor :=
  match mapGet st.peerSyncStates slug with
  | none => st
  | some communityPeers =>
    if (mapDelete communityPeers peerId).length = 0 then
      { st with peerSyncStates := mapDelete st.peerSyncStates slug }
    else
      { st with
        peerSyncStates :=
          mapSet st.peerSyncStates slug (mapDelete communityPeers peerId) }

/-! ## Sync reconciliation engine -/

/-- The `hasPatches` test of `receiveSyncMessage`:
`patch && patch.patches && patch.patches.length > 0`. -/
def hasPatchesOf {Patch : Type} (patch : Option (List Patch)) : Bool :=
  match patch with
  | some ps => decide (0 < ps.length)
  | none => false

/-- One iteration of the fan-out loop of `receiveSyncMessage`: skip the
sender, otherwise generate a catch-up message against the new canonical doc
using the other peer's own cursor, advance that cursor, and collect the
message when one was produced. -/
def fanoutStep {Doc Cursor Patch : Type} (lib : MergeLib Doc Cursor Patch)
    (newDoc : Doc) (peerId : String)
    (acc : List (String × PeerState Cursor) × List (String × List Nat))
    (entry : String × PeerState Cursor) :
    List (String × PeerState Cursor) × List (String × List Nat) :=
  if entry.1 == peerId then (acc.1 ++ [entry], acc.2)
  else
    let r := lib.generateSync newDoc entry.2.syncState
    let e2 : String × PeerState Cursor := (entry.1, { entry.2 with syncState := r.1 })
    match r.2 with
    | some m => (acc.1 ++ [e2], acc.2 ++ [(entry.1, m)])
    | none => (acc.1 ++ [e2], acc.2)

/-- Characterization of the messages collected by the fan-out loop: one
catch-up delta per non-sender peer for which `generateSync` produced one. -/
def fanoutMsgs {Doc Cursor Patch : Type} (lib : MergeLib Doc Cursor Patch)
    (newDoc : Doc) (peerId : String)
    (peers : List (String × PeerState Cursor)) : List (String × List Nat) :=
  peers.filterMap (fun e =>
    if e.1 == peerId then none
    else
      match (lib.generateSync newDoc e.2.syncState).2 with
      | some m => some (e.1, m)
      | none => none)

/-- `receiveSyncMessage(slug, peerId, message)`: merge an inbound delta into
the canonical replica, persist (debounced) when the merge produced patches,
reply to the sender, and when patches were produced compute catch-up deltas
for every other tracked peer.  Returns
`{response, broadcastToPeers}` and the updated store. -/
def receiveSyncMessage {Doc Cursor Patch : Type} (lib : MergeLib Doc Cursor Patch)
    (st : StoreState Doc Cursor) (slug peerId : String) (message : List Nat)
    (now : Nat) :
    (Option (List Nat) × List (String × List Nat)) × StoreState Doc Cursor :=
  match mapGet st.communities slug with
  | none => ((none, []), st)
  | some doc =>
    let g := getPeerSyncState lib st slug peerId now
    let peerState := g.1
    let st1 := g.2
    let r := lib.receiveSync doc peerState.syncState message
    let newDoc := r.1
    let newSyncState := r.2.1
    let patch := r.2.2
    let st2 := { st1 with communities := mapSet st1.communities slug newDoc }
    let ps1 : PeerState Cursor := { peerState with syncState := newSyncState }
    let st3 := setPeerState st2 slug peerId ps1
    let hasPatches := hasPatchesOf patch
    let st4 := if hasPatches then saveCommunity st3 slug else st3
    let g2 := lib.generateSync newDoc ps1.syncState
    let nextSyncState := g2.1
    let responseMessage := g2.2
    let ps2 : PeerState Cursor := { ps1 with syncState := nextSyncState }
    let st5 := setPeerState st4 slug peerId ps2
    let communityPeers := (mapGet st5.peerSyncStates slug).getD []
    if hasPatches then
      let f := communityPeers.foldl (fanoutStep lib newDoc peerId) ([], [])
      let st6 := { st5 with peerSyncStates := mapSet st5.peerSyncStates slug f.1 }
      ((responseMessage, f.2), st6)
    else
      ((responseMessage, []), st5)

/-- `generateSyncMessageForPeer(slug, peerId)`: initial catch-up delta for a
(possibly new) peer; `null` when the document is not resident. -/
def generateSyncMessageForPeer {Doc Cursor Patch : Type}
    (lib : MergeLib Doc Cursor Patch) (st : StoreState Doc Cursor)
    (slug peerId : String) (now : Nat) :
    Option (List Nat) × StoreState Doc Cursor :=
  match mapGet st.communities slug with
  | none => (none, st)
  | some doc =>
    let g := getPeerSyncState lib st slug peerId now
    let r := lib.generateSync doc g.1.syncState
    (r.2, setPeerState g.2 slug peerId { g.1 with syncState := r.1 })

/-! ## Shape mutations (legacy API) -/

/-- The mutator of `updateShape`: whole-record replace of one shape. -/
def updateShapeMutator (shapeId : String) (data : ShapeData) :
    CommunityDoc → CommunityDoc :=
  fun d => { d with shapes := mapSet d.shapes shapeId data }

/-- The mutator of `deleteShape`: remove the shape when present. -/
def deleteShapeMutator (shapeId : String) : CommunityDoc → CommunityDoc :=
  fun d =>
    if mapHas d.shapes shapeId then { d with shapes := mapDelete d.shapes shapeId }
    else d

/-- `updateShape(slug, shapeId, data)`: silent no-op when the document is not
resident; otherwise apply the mutation through the merge library's change
capability, replace the cached replica, and schedule persistence. -/
def updateShape {Doc Cursor Patch : Type} (lib : MergeLib Doc Cursor Patch)
    (st : StoreState Doc Cursor) (slug shapeId : String) (data : ShapeData) :
    StoreState Doc Cursor :=
  match mapGet st.communities slug with
  | none => st
  | some doc =>
    let newDoc := lib.change doc ("Update shape " ++ shapeId)
      (updateShapeMutator shapeId data)
    saveCommunity { st with communities := mapSet st.communities slug newDoc } slug

/-- `deleteShape(slug, shapeId)`: silent no-op when the document is not
resident; otherwise apply the delete mutator, replace the cached replica,
and schedule persistence. -/
def deleteShape {Doc Cursor Patch : Type} (lib : MergeLib Doc Cursor Patch)
    (st : StoreState Doc Cursor) (slug shapeId : String) :
    StoreState Doc Cursor :=
  match mapGet st.communities slug with
  | none => st
  | some doc =>
    let newDoc := lib.change doc ("Delete shape " ++ shapeId)
      (deleteShapeMutator shapeId)
    saveCommunity { st with communities := mapSet st.communities slug newDoc } slug

/-! ## Server layer (WebSocket relay and creation API) -/

/-- JavaScript falsiness of an optional string (`!name`): absent or empty. -/
def strFalsy (s : Option String) : Bool := s.getD "" == ""

/-- One character of the slug alphabet `[a-z0-9-]`. -/
def isSlugChar (c : Char) : Bool :=
  (decide (Char.ofNat 97 ≤ c) && decide (c ≤ Char.ofNat 122))
    || (decide (Char.ofNat 48 ≤ c) && decide (c ≤ Char.ofNat 57))
    || c == Char.ofNat 45

/-- The slug validation `/^[a-z0-9-]+$/.test(slug)`. -/
def isValidSlug (s : String) : Bool :=
  decide (0 < s.length) && s.data.all isSlugChar

/-- Outcome of `POST /api/communities`. -/
inductive CreateResult where
  | badRequest (error : String)
  | alreadyExists
  | ok (url slug name : String)
deriving DecidableEq, Repr

/-- The `POST /api/communities` branch of `handleAPI`: require `name` and
`slug`, validate the slug format, reject an existing slug with the
409-equivalent `alreadyExists`, otherwise create the community and answer
with its URL. -/
def handleCreateCommunity {Doc Cursor Patch : Type}
    (lib : MergeLib Doc Cursor Patch) (st : StoreState Doc Cursor)
    (nameArg slugArg : Option String) (nowISO : String) :
    CreateResult × StoreState Doc Cursor :=
  if strFalsy nameArg || strFalsy slugArg then
    (.badRequest "Name and slug are required", st)
  else
    let name := nameArg.getD ""
    let slug := slugArg.getD ""
    if !isValidSlug slug then
      (.badRequest "Slug must contain only lowercase letters, numbers, and hyphens", st)
    else if communityExists st slug then
      (.alreadyExists, st)
    else
      let r := createCommunity lib st name slug nowISO
      (.ok ("https://" ++ slug ++ ".rspace.online") slug name, r.2)

/-- Inbound WebSocket messages after JSON parsing (`msg.type` dispatch). -/
inductive ClientMsg where
  | sync (data : List Nat)
  | ping (timestamp : Nat)
  | presence (payload : String)
  | updateMsg (id : String) (data : ShapeData)
  | deleteMsg (id : String)
deriving DecidableEq, Repr

/-- Outbound WebSocket messages. -/
inductive WireMsg where
  | sync (data : List Nat)
  | pong (timestamp : Nat)
  | presence (fromPeer : String) (payload : String)
  | updateMsg (id : String) (data : ShapeData)
  | deleteMsg (id : String)
deriving DecidableEq, Repr

/-- A message handed to a connection: the sender's own socket or another
peer's socket found through the connection registry. -/
inductive Outbound where
  | toSelf (m : WireMsg)
  | toPeer (peerId : String) (m : WireMsg)
deriving DecidableEq, Repr

/-- The whole server state: the `communityClients` connection registry
(per community, per peer id, whether `readyState === WebSocket.OPEN`) and
the store. -/
structure ServerState (Doc Cursor : Type) where
  clients : List (String × List (String × Bool))
  store : StoreState Doc Cursor
deriving DecidableEq, Repr

/-- The `websocket.message` handler: `sync` messages go through the
reconciliation engine with fan-out to registered open peers; `ping` is
answered with a `pong` carrying the same timestamp; `presence` is echoed to
every other open peer of the community; legacy `update`/`delete` messages
mutate the document and are re-broadcast. -/
def handleMessage {Doc Cursor Patch : Type} (lib : MergeLib Doc Cursor Patch)
    (ss : ServerState Doc Cursor) (slug peerId : String) (msg : ClientMsg)
    (now : Nat) : List Outbound × ServerState Doc Cursor :=
  match msg with
  | .sync data =>
    let r := receiveSyncMessage lib ss.store slug peerId data now
    let selfSends : List Outbound :=
      match r.1.1 with
      | some resp => [.toSelf (.sync resp)]
      | none => []
    let peerSends : List Outbound :=
      r.1.2.foldl (fun acc t =>
        match mapGet ((mapGet ss.clients slug).getD []) t.1 with
        | some true => acc ++ [.toPeer t.1 (.sync t.2)]
        | _ => acc) []
    (selfSends ++ peerSends, { ss with store := r.2 })
  | .ping ts => ([.toSelf (.pong ts)], ss)
  | .presence payload =>
    let clients := (mapGet ss.clients slug).getD []
    let sends : List Outbound :=
      clients.foldl (fun acc c =>
        if c.1 ≠ peerId ∧ c.2 then
          acc ++ [.toPeer c.1 (.presence peerId payload)]
        else acc) []
    (sends, ss)
  | .updateMsg id data =>
    let st1 := updateShape lib ss.store slug id data
    let clients := (mapGet ss.clients slug).getD []
    let sends : List Outbound :=
      clients.foldl (fun acc c =>
        if c.1 ≠ peerId ∧ c.2 then
          acc ++ [.toPeer c.1 (.updateMsg id data)]
        else acc) []
    (sends, { ss with store := st1 })
  | .deleteMsg id =>
    let st1 := deleteShape lib ss.store slug id
    let clients := (mapGet ss.clients slug).getD []
    let sends : List Outbound :=
      clients.foldl (fun acc c =>
        if c.1 ≠ peerId ∧ c.2 then
          acc ++ [.toPeer c.1 (.deleteMsg id)]
        else acc) []
    (sends, { ss with store := st1 })

/-! ## A concrete instance of the merge-library capabilities

Used to instantiate the universally quantified theorems at concrete inputs. -/

def trivDoc : CommunityDoc := ⟨⟨"", "", ""⟩, []⟩

def trivLib : MergeLib CommunityDoc Nat Unit where
  initDoc := trivDoc
  initSyncState := 0
  load := fun b => if b.isEmpty then none else some trivDoc
  save := fun d => [d.shapes.length]
  change := fun d _ f => f d
  receiveSync := fun d c _ => (d, c + 1, some [])
  generateSync := fun _ c => (c + 1, none)

/-! ## Frame lemmas for the store operations -/

theorem saveCommunity_communities {Doc Cursor : Type} (st : StoreState Doc Cursor)
    (slug : String) : (saveCommunity st slug).communities = st.communities := by
  unfold saveCommunity
  cases mapGet st.communities slug <;> rfl

theorem saveCommunity_peerSyncStates {Doc Cursor : Type} (st : StoreState Doc Cursor)
    (slug : String) : (saveCommunity st slug).peerSyncStates = st.peerSyncStates := by
  unfold saveCommunity
  cases mapGet st.communities slug <;> rfl

theorem saveCommunity_storageAutomerge {Doc Cursor : Type} (st : StoreState Doc Cursor)
    (slug : String) : (saveCommunity st slug).storageAutomerge = st.storageAutomerge := by
  unfold saveCommunity
  cases mapGet st.communities slug <;> rfl

theorem saveCommunity_storageJson {Doc Cursor : Type} (st : StoreState Doc Cursor)
    (slug : String) : (saveCommunity st slug).storageJson = st.storageJson := by
  unfold saveCommunity
  cases mapGet st.communities slug <;> rfl

theorem saveCommunity_of_resident {Doc Cursor : Type} (st : StoreState Doc Cursor)
    (slug : String) (d : Doc) (h : mapGet st.communities slug = some d) :
    saveCommunity st slug =
      { st with
        pendingTimers :=
          clearedPending st slug ++ [⟨st.nextTimerId, slug, saveDebounceMs⟩],
        saveTimers := mapSet st.saveTimers slug st.nextTimerId,
        nextTimerId := st.nextTimerId + 1 } := by
  unfold saveCommunity
  rw [h]

/-! ## C9: operations on a non-resident document -/

/-- C9: for a document id that is not resident in the cache,
`receiveSyncMessage` returns a null response and an empty broadcast map and
leaves the whole state (including the peer sync-state table) unchanged, and
`generateSyncMessageForPeer` returns null and leaves the state unchanged;
neither creates a peer sync-state entry. -/
theorem nonresident_sync_noop {Doc Cursor Patch : Type}
    (lib : MergeLib Doc Cursor Patch) (st : StoreState Doc Cursor)
    (slug peerId : String) (message : List Nat) (now : Nat)
    (h : mapGet st.communities slug = none) :
    receiveSyncMessage lib st slug peerId message now = ((none, []), st) ∧
    generateSyncMessageForPeer lib st slug peerId now = (none, st) := by
  constructor
  · unfold receiveSyncMessage
    rw [h]
  · unfold generateSyncMessageForPeer
    rw [h]

def stEmpty : StoreState CommunityDoc Nat := ⟨[], [], [], [], 0, [], []⟩

theorem nonresident_sync_noop_witness :
    receiveSyncMessage trivLib stEmpty "garden" "p1" [1, 2] 5 = ((none, []), stEmpty) ∧
    generateSyncMessageForPeer trivLib stEmpty "garden" "p1" 5 = (none, stEmpty) :=
  nonresident_sync_noop trivLib stEmpty "garden" "p1" [1, 2] 5 rfl

theorem saveCommunity_after_set {Doc Cursor : Type} (st : StoreState Doc Cursor)
    (slug : String) (d : Doc) :
    mapGet (saveCommunity { st with communities := mapSet st.communities slug d } slug).communities slug = some d ∧
    mapGet (saveCommunity { st with communities := mapSet st.communities slug d } slug).saveTimers slug = some st.nextTimerId ∧
    (⟨st.nextTimerId, slug, saveDebounceMs⟩ : PendingTimer) ∈
      (saveCommunity { st with communities := mapSet st.communities slug d } slug).pendingTimers := by
  have h1 : mapGet ({ st with communities := mapSet st.communities slug d } : StoreState Doc Cursor).communities slug = some d :=
    mapGet_set_self ..
  rw [saveCommunity_of_resident _ slug d h1]
  exact ⟨h1, mapGet_set_self .., by simp⟩

/-! ## C8: shape mutations -/

/-- C8: `updateShape`/`deleteShape` on a non-resident document are silent
no-ops leaving the entire state unchanged and scheduling nothing; on a
resident document they apply the mutation through the merge library's change
capability, replace the cached replica, and schedule a persistence write
(a save timer for the slug is armed). -/
theorem shape_mutation_spec {Doc Cursor Patch : Type}
    (lib : MergeLib Doc Cursor Patch) (st : StoreState Doc Cursor)
    (slug shapeId : String) (data : ShapeData) :
    (mapGet st.communities slug = none →
      updateShape lib st slug shapeId data = st ∧
      deleteShape lib st slug shapeId = st) ∧
    (∀ doc, mapGet st.communities slug = some doc →
      (mapGet (updateShape lib st slug shapeId data).communities slug =
          some (lib.change doc ("Update shape " ++ shapeId)
            (updateShapeMutator shapeId data)) ∧
        mapGet (updateShape lib st slug shapeId data).saveTimers slug =
          some st.nextTimerId ∧
        (⟨st.nextTimerId, slug, saveDebounceMs⟩ : PendingTimer) ∈
          (updateShape lib st slug shapeId data).pendingTimers) ∧
      (mapGet (deleteShape lib st slug shapeId).communities slug =
          some (lib.change doc ("Delete shape " ++ shapeId)
            (deleteShapeMutator shapeId)) ∧
        mapGet (deleteShape lib st slug shapeId).saveTimers slug =
          some st.nextTimerId ∧
        (⟨st.nextTimerId, slug, saveDebounceMs⟩ : PendingTimer) ∈
          (deleteShape lib st slug shapeId).pendingTimers)) := by
  constructor
  · intro h
    constructor
    · unfold updateShape; rw [h]
    · unfold deleteShape; rw [h]
  · intro doc h
    have hu : updateShape lib st slug shapeId data =
        saveCommunity { st with communities := mapSet st.communities slug (lib.change doc ("Update shape " ++ shapeId) (updateShapeMutator shapeId data)) } slug := by
      unfold updateShape; rw [h]
    have hd : deleteShape lib st slug shapeId =
        saveCommunity { st with communities := mapSet st.communities slug (lib.change doc ("Delete shape " ++ shapeId) (deleteShapeMutator shapeId)) } slug := by
      unfold deleteShape; rw [h]
    constructor
    · rw [hu]
      exact saveCommunity_after_set st slug
        (lib.change doc ("Update shape " ++ shapeId)
          (updateShapeMutator shapeId data))
    · rw [hd]
      exact saveCommunity_after_set st slug
        (lib.change doc ("Delete shape " ++ shapeId)
          (deleteShapeMutator shapeId))

def shapeA : ShapeData := ⟨"rectangle", "s1", 0, 0, 10, 10, 0, none, none, none⟩

def stResident : StoreState CommunityDoc Nat :=
  ⟨[("garden", trivDoc)], [], [], [], 0, [], []⟩

theorem shape_mutation_spec_witness :
    updateShape trivLib stEmpty "garden" "s1" shapeA = stEmpty ∧
    mapGet (updateShape trivLib stResident "garden" "s1" shapeA).communities
        "garden" =
      some (trivLib.change trivDoc ("Update shape " ++ "s1")
        (updateShapeMutator "s1" shapeA)) :=
  ⟨((shape_mutation_spec trivLib stEmpty "garden" "s1" shapeA).1 rfl).1,
    (((shape_mutation_spec trivLib stResident "garden" "s1" shapeA).2 trivDoc
      rfl).1).1⟩

/-! ## Reachable-state invariants of the peer sync-state table -/

/-- The outer peer-table keys are distinct (JavaScript `Map`s have unique
keys; every reachable table state satisfies this). -/
def TableWF {Doc Cursor : Type} (st : StoreState Doc Cursor) : Prop :=
  st.peerSyncStates.Pairwise (fun a b => a.1 ≠ b.1)

/-- No per-document collection in the table is empty (maintained by
`getPeerSyncState`, which inserts a peer right after creating a collection,
and by `removePeerSyncState`, which drops emptied collections). -/
def TableNoEmpty {Doc Cursor : Type} (st : StoreState Doc Cursor) : Prop :=
  ∀ s cp, mapGet st.peerSyncStates s = some cp → cp ≠ []

theorem removePeer_eq_none {Doc Cursor : Type} (st : StoreState Doc Cursor)
    (slug peerId : String) (h : mapGet st.peerSyncStates slug = none) :
    removePeerSyncState st slug peerId = st := by
  unfold removePeerSyncState
  rw [h]

theorem removePeer_eq_some {Doc Cursor : Type} (st : StoreState Doc Cursor)
    (slug peerId : String) (cp : List (String × PeerState Cursor))
    (h : mapGet st.peerSyncStates slug = some cp) :
    removePeerSyncState st slug peerId =
      if (mapDelete cp peerId).length = 0 then
        { st with peerSyncStates := mapDelete st.peerSyncStates slug }
      else
        { st with
          peerSyncStates :=
            mapSet st.peerSyncStates slug (mapDelete cp peerId) } := by
  unfold removePeerSyncState
  rw [h]

/-! ## C4: disconnect cleanup and reconnect -/

/-- C4: `removePeerSyncState` deletes exactly the (document, peer) entry —
other documents' collections and other peers' entries are untouched; when
the deleted peer was the last one the per-document collection itself is
removed, and the no-empty-collection invariant is preserved; a subsequent
`getPeerSyncState` for a peer with no entry hands out a fresh sync state
with the initial cursor (so a reconnecting peer is caught up from scratch),
refreshing `lastActivity`. -/
theorem remove_then_reconnect_spec {Doc Cursor Patch : Type}
    (lib : MergeLib Doc Cursor Patch) (st : StoreState Doc Cursor)
    (slug peerId : String) (now : Nat) :
    (∀ s, s ≠ slug →
      mapGet (removePeerSyncState st slug peerId).peerSyncStates s =
        mapGet st.peerSyncStates s) ∧
    (mapGet ((mapGet (removePeerSyncState st slug peerId).peerSyncStates slug).getD [])
        peerId = none) ∧
    (∀ otherId, otherId ≠ peerId →
      mapGet ((mapGet (removePeerSyncState st slug peerId).peerSyncStates slug).getD [])
          otherId =
        mapGet ((mapGet st.peerSyncStates slug).getD []) otherId) ∧
    (∀ cp, mapGet st.peerSyncStates slug = some cp → mapDelete cp peerId = [] →
      mapGet (removePeerSyncState st slug peerId).peerSyncStates slug = none) ∧
    (TableNoEmpty st → TableNoEmpty (removePeerSyncState st slug peerId)) ∧
    (mapGet ((mapGet st.peerSyncStates slug).getD []) peerId = none →
      (getPeerSyncState lib st slug peerId now).1 =
        ⟨lib.initSyncState, now⟩) := by
  refine ⟨?_, ?_, ?_, ?_, ?_, ?_⟩
  · intro s hs
    cases hslug : mapGet st.peerSyncStates slug with
    | none => rw [removePeer_eq_none st slug peerId hslug]
    | some cp =>
      rw [removePeer_eq_some st slug peerId cp hslug]
      by_cases hlen : (mapDelete cp peerId).length = 0
      · rw [if_pos hlen]
        exact mapGet_delete_ne st.peerSyncStates slug s hs
      · rw [if_neg hlen]
        exact mapGet_set_ne st.peerSyncStates slug s (mapDelete cp peerId) hs
  · cases hslug : mapGet st.peerSyncStates slug with
    | none =>
      rw [removePeer_eq_none st slug peerId hslug, hslug]
      simp
    | some cp =>
      rw [removePeer_eq_some st slug peerId cp hslug]
      by_cases hlen : (mapDelete cp peerId).length = 0
      · rw [if_pos hlen]
        show mapGet ((mapGet (mapDelete st.peerSyncStates slug) slug).getD []) peerId = none
        rw [mapGet_delete_self]
        simp
      · rw [if_neg hlen]
        show mapGet ((mapGet (mapSet st.peerSyncStates slug (mapDelete cp peerId)) slug).getD []) peerId = none
        rw [mapGet_set_self]
        exact mapGet_delete_self cp peerId
  · intro otherId hother
    cases hslug : mapGet st.peerSyncStates slug with
    | none => rw [removePeer_eq_none st slug peerId hslug, hslug]
    | some cp =>
      rw [removePeer_eq_some st slug peerId cp hslug]
      by_cases hlen : (mapDelete cp peerId).length = 0
      · rw [if_pos hlen]
        show mapGet ((mapGet (mapDelete st.peerSyncStates slug) slug).getD []) otherId = _
        rw [mapGet_delete_self]
        have hdel : mapDelete cp peerId = [] := List.length_eq_zero.mp hlen
        have hnone : mapGet cp otherId = none := by
          unfold mapGet
          rw [List.find?_eq_none.mpr]
          · rfl
          · intro q hq
            intro hbq
            have hq1 : q.1 = otherId := eq_of_beq hbq
            have hqin : q ∈ mapDelete cp peerId := by
              unfold mapDelete
              rw [List.mem_filter]
              refine ⟨hq, ?_⟩
              simp [bne, hq1, beqF hother]
            rw [hdel] at hqin
            simp at hqin
        simp [hnone]
      · rw [if_neg hlen]
        show mapGet ((mapGet (mapSet st.peerSyncStates slug (mapDelete cp peerId)) slug).getD []) otherId = _
        rw [mapGet_set_self]
        show mapGet (mapDelete cp peerId) otherId = mapGet cp otherId
        exact mapGet_delete_ne cp peerId otherId hother
  · intro cp hslug hdel
    rw [removePeer_eq_some st slug peerId cp hslug, hdel]
    simp [mapGet_delete_self]
  · intro hne
    cases hslug : mapGet st.peerSyncStates slug with
    | none => rw [removePeer_eq_none st slug peerId hslug]; exact hne
    | some cp =>
      rw [removePeer_eq_some st slug peerId cp hslug]
      by_cases hlen : (mapDelete cp peerId).length = 0
      · rw [if_pos hlen]
        intro s cps hcps
        have hcps2 : mapGet (mapDelete st.peerSyncStates slug) s = some cps := hcps
        by_cases hs : s = slug
        · subst hs
          rw [mapGet_delete_self] at hcps2
          cases hcps2
        · rw [mapGet_delete_ne st.peerSyncStates slug s hs] at hcps2
          exact hne s cps hcps2
      · rw [if_neg hlen]
        intro s cps hcps
        have hcps2 : mapGet (mapSet st.peerSyncStates slug (mapDelete cp peerId)) s = some cps := hcps
        by_cases hs : s = slug
        · subst hs
          rw [mapGet_set_self] at hcps2
          cases hcps2
          intro hc
          rw [hc] at hlen
          simp at hlen
        · rw [mapGet_set_ne st.peerSyncStates slug s (mapDelete cp peerId) hs] at hcps2
          exact hne s cps hcps2
  · intro hnone
    simp [getPeerSyncState, hnone]

def stPeers : StoreState CommunityDoc Nat :=
  ⟨[("garden", trivDoc)], [("garden", [("p1", ⟨3, 1⟩), ("p2", ⟨4, 1⟩)])],
    [], [], 0, [], []⟩

theorem remove_then_reconnect_spec_witness :
    mapGet ((mapGet (removePeerSyncState stPeers "garden" "p1").peerSyncStates
        "garden").getD []) "p1" = none ∧
    mapGet ((mapGet (removePeerSyncState stPeers "garden" "p1").peerSyncStates
        "garden").getD []) "p2" =
      mapGet ((mapGet stPeers.peerSyncStates "garden").getD []) "p2" ∧
    (getPeerSyncState trivLib stPeers "garden" "p9" 7).1 =
      (⟨trivLib.initSyncState, 7⟩ : PeerState Nat) :=
  ⟨(remove_then_reconnect_spec trivLib stPeers "garden" "p1" 7).2.1,
    (remove_then_reconnect_spec trivLib stPeers "garden" "p1" 7).2.2.1 "p2"
      (by decide),
    (remove_then_reconnect_spec trivLib stPeers "garden" "p9" 7).2.2.2.2.2
      rfl⟩

/-! ## C10: removePeerSyncState is idempotent -/

/-- C10: removing a (document, peer) sync-state entry that does not exist —
including for a document with no tracked peers at all — is a no-op leaving
the table unchanged (stated over well-formed tables: distinct outer keys and
no empty collections, the invariants maintained by the store's operations);
and removing twice in succession always yields exactly the state of removing
once. -/
theorem removePeer_idem {Doc Cursor : Type} (st : StoreState Doc Cursor)
    (slug peerId : String) :
    (TableWF st → TableNoEmpty st →
      mapGet ((mapGet st.peerSyncStates slug).getD []) peerId = none →
      removePeerSyncState st slug peerId = st) ∧
    removePeerSyncState (removePeerSyncState st slug peerId) slug peerId =
      removePeerSyncState st slug peerId := by
  constructor
  · intro hwf hne hnone
    cases hslug : mapGet st.peerSyncStates slug with
    | none => exact removePeer_eq_none st slug peerId hslug
    | some cp =>
      rw [hslug] at hnone
      have hnone2 : mapGet cp peerId = none := hnone
      have hdel : mapDelete cp peerId = cp := mapDelete_of_get_none cp peerId hnone2
      rw [removePeer_eq_some st slug peerId cp hslug, hdel]
      have hcp : cp ≠ [] := hne slug cp hslug
      rw [if_neg (by simpa [List.length_eq_zero] using hcp)]
      rw [mapSet_of_get_eq st.peerSyncStates slug cp hwf hslug]
  · cases hslug : mapGet st.peerSyncStates slug with
    | none =>
      rw [removePeer_eq_none st slug peerId hslug,
        removePeer_eq_none st slug peerId hslug]
    | some cp =>
      rw [removePeer_eq_some st slug peerId cp hslug]
      by_cases hlen : (mapDelete cp peerId).length = 0
      · rw [if_pos hlen]
        exact removePeer_eq_none _ slug peerId (mapGet_delete_self ..)
      · rw [if_neg hlen]
        rw [removePeer_eq_some _ slug peerId (mapDelete cp peerId)
          (mapGet_set_self ..)]
        rw [mapDelete_mapDelete]
        rw [if_neg hlen]
        show ({ st with peerSyncStates := mapSet (mapSet st.peerSyncStates slug (mapDelete cp peerId)) slug (mapDelete cp peerId) } : StoreState Doc Cursor) = _
        rw [mapSet_mapSet]

theorem removePeer_idem_witness :
    removePeerSyncState stPeers "nowhere" "p1" = stPeers ∧
    removePeerSyncState (removePeerSyncState stPeers "garden" "p1") "garden"
        "p1" =
      removePeerSyncState stPeers "garden" "p1" :=
  ⟨(removePeer_idem stPeers "nowhere" "p1").1
      (by unfold TableWF stPeers; simp)
      (by
        intro s cp hcp
        unfold stPeers at hcp
        by_cases hs : s = "garden"
        · subst hs
          simp at hcp
          rw [← hcp]
          simp
        · have : mapGet stPeers.peerSyncStates s = some cp := hcp
          unfold stPeers at this
          rw [show mapGet [("garden", [("p1", (⟨3, 1⟩ : PeerState Nat)), ("p2", ⟨4, 1⟩)])] s = none from by simp [beqF (Ne.symm hs)]] at this
          cases this)
      rfl,
    (removePeer_idem stPeers "garden" "p1").2⟩

/-! ## C5/C6: the creation API -/

/-- C5: with both fields supplied and a well-formed slug, creation answers
the 409-equivalent `alreadyExists` when `communityExists` holds — leaving
the whole state untouched, so no document is created or overwritten —
and otherwise creates the empty document carrying the given name, slug and
creation timestamp (the `createDoc` change on a fresh replica), registers it
in the cache, schedules a persistence write (a save timer for the slug is
armed), and answers `{url, slug, name}`. -/
theorem create_community_spec {Doc Cursor Patch : Type}
    (lib : MergeLib Doc Cursor Patch) (st : StoreState Doc Cursor)
    (nameArg slugArg : Option String) (nowISO : String)
    (hname : strFalsy nameArg = false) (hslug : strFalsy slugArg = false)
    (hvalid : isValidSlug (slugArg.getD "") = true) :
    (communityExists st (slugArg.getD "") = true →
      handleCreateCommunity lib st nameArg slugArg nowISO =
        (.alreadyExists, st)) ∧
    (communityExists st (slugArg.getD "") = false →
      handleCreateCommunity lib st nameArg slugArg nowISO =
        (.ok ("https://" ++ slugArg.getD "" ++ ".rspace.online")
          (slugArg.getD "") (nameArg.getD ""),
          saveCommunity { st with communities := mapSet st.communities (slugArg.getD "") (createDoc lib (nameArg.getD "") (slugArg.getD "") nowISO) } (slugArg.getD "")) ∧
      mapGet (handleCreateCommunity lib st nameArg slugArg nowISO).2.communities
          (slugArg.getD "") =
        some (createDoc lib (nameArg.getD "") (slugArg.getD "") nowISO) ∧
      mapGet (handleCreateCommunity lib st nameArg slugArg nowISO).2.saveTimers
          (slugArg.getD "") =
        some st.nextTimerId ∧
      (⟨st.nextTimerId, slugArg.getD "", saveDebounceMs⟩ : PendingTimer) ∈
        (handleCreateCommunity lib st nameArg slugArg nowISO).2.pendingTimers) := by
  have h0 : (strFalsy nameArg || strFalsy slugArg) = false := by
    rw [hname, hslug]
    rfl
  constructor
  · intro hex
    unfold handleCreateCommunity
    rw [h0]
    simp [hvalid, hex]
  · intro hex
    have heq : handleCreateCommunity lib st nameArg slugArg nowISO =
        (.ok ("https://" ++ slugArg.getD "" ++ ".rspace.online")
          (slugArg.getD "") (nameArg.getD ""),
          saveCommunity { st with communities := mapSet st.communities (slugArg.getD "") (createDoc lib (nameArg.getD "") (slugArg.getD "") nowISO) } (slugArg.getD "")) := by
      unfold handleCreateCommunity
      rw [h0]
      simp [hvalid, hex, createCommunity]
    rw [heq]
    exact ⟨rfl, (saveCommunity_after_set st (slugArg.getD "") _).1,
      (saveCommunity_after_set st (slugArg.getD "") _).2.1,
      (saveCommunity_after_set st (slugArg.getD "") _).2.2⟩

theorem create_community_spec_witness :
    handleCreateCommunity trivLib stResident (some "Garden") (some "garden")
        "2024-01-01T00:00:00Z" =
      (.alreadyExists, stResident) ∧
    mapGet (handleCreateCommunity trivLib stEmpty (some "Garden")
        (some "garden") "2024-01-01T00:00:00Z").2.communities "garden" =
      some (createDoc trivLib "Garden" "garden" "2024-01-01T00:00:00Z") :=
  ⟨(create_community_spec trivLib stResident (some "Garden") (some "garden")
      "2024-01-01T00:00:00Z" (by decide) (by decide) (by decide)).1 rfl,
    ((create_community_spec trivLib stEmpty (some "Garden") (some "garden")
      "2024-01-01T00:00:00Z" (by decide) (by decide) (by decide)).2 rfl).2.1⟩

/-- C6: a creation request with a missing (or empty) name or slug, or with a
slug that fails the `^[a-z0-9-]+$` format — such as `"My Slug!"` — is
answered with the 400-equivalent `badRequest`, the state is returned
unchanged (no document is created in memory or on storage), and
`communityExists` for the slug is exactly what it was before. -/
theorem create_invalid_rejected {Doc Cursor Patch : Type}
    (lib : MergeLib Doc Cursor Patch) (st : StoreState Doc Cursor)
    (nameArg slugArg : Option String) (nowISO : String) :
    ((strFalsy nameArg = true ∨ strFalsy slugArg = true) →
      handleCreateCommunity lib st nameArg slugArg nowISO =
        (.badRequest "Name and slug are required", st)) ∧
    (strFalsy nameArg = false → strFalsy slugArg = false →
      isValidSlug (slugArg.getD "") = false →
      handleCreateCommunity lib st nameArg slugArg nowISO =
        (.badRequest "Slug must contain only lowercase letters, numbers, and hyphens", st)) ∧
    isValidSlug "My Slug!" = false ∧
    ((strFalsy nameArg = true ∨ strFalsy slugArg = true ∨
        isValidSlug (slugArg.getD "") = false) →
      communityExists (handleCreateCommunity lib st nameArg slugArg nowISO).2
          (slugArg.getD "") =
        communityExists st (slugArg.getD "")) := by
  refine ⟨?_, ?_, by decide, ?_⟩
  · intro hmiss
    have h0 : (strFalsy nameArg || strFalsy slugArg) = true := by
      rcases hmiss with h | h <;> simp [h]
    unfold handleCreateCommunity
    rw [h0]
    simp
  · intro hname hslug hvalid
    have h0 : (strFalsy nameArg || strFalsy slugArg) = false := by
      rw [hname, hslug]
      rfl
    unfold handleCreateCommunity
    rw [h0]
    simp [hvalid]
  · intro hbad
    by_cases hmiss : (strFalsy nameArg || strFalsy slugArg) = true
    · unfold handleCreateCommunity
      rw [hmiss]
      simp
    · have h0 : (strFalsy nameArg || strFalsy slugArg) = false := by
        simpa using hmiss
      have hvalid : isValidSlug (slugArg.getD "") = false := by
        rcases hbad with h | h | h
        · rw [Bool.or_eq_false_iff] at h0
          rw [h0.1] at h
          cases h
        · rw [Bool.or_eq_false_iff] at h0
          rw [h0.2] at h
          cases h
        · exact h
      unfold handleCreateCommunity
      rw [h0]
      simp [hvalid]

theorem create_invalid_rejected_witness :
    handleCreateCommunity trivLib stEmpty (some "My Community")
        (some "My Slug!") "2024-01-01T00:00:00Z" =
      (.badRequest "Slug must contain only lowercase letters, numbers, and hyphens", stEmpty) ∧
    communityExists (handleCreateCommunity trivLib stEmpty
        (some "My Community") (some "My Slug!")
        "2024-01-01T00:00:00Z").2 "My Slug!" =
      communityExists stEmpty "My Slug!" :=
  ⟨(create_invalid_rejected trivLib stEmpty (some "My Community")
      (some "My Slug!") "2024-01-01T00:00:00Z").2.1 (by decide) (by decide)
      (by decide),
    (create_invalid_rejected trivLib stEmpty (some "My Community")
      (some "My Slug!") "2024-01-01T00:00:00Z").2.2.2
      (Or.inr (Or.inr (by decide)))⟩

/-! ## C7: ping and presence bypass the reconciliation engine -/

theorem presence_fold (peerId payload : String) (l : List (String × Bool))
    (init : List Outbound) :
    l.foldl (fun acc c =>
        if c.1 ≠ peerId ∧ c.2 then
          acc ++ [Outbound.toPeer c.1 (WireMsg.presence peerId payload)]
        else acc) init =
      init ++ (l.filter (fun c => c.1 != peerId && c.2)).map
        (fun c => Outbound.toPeer c.1 (WireMsg.presence peerId payload)) := by
  induction l generalizing init with
  | nil => simp
  | cons c t ih =>
    by_cases h : c.1 ≠ peerId ∧ c.2
    · have hb : (c.1 != peerId && c.2) = true := by
        simp [bne, beqF h.1, h.2]
      simp [List.foldl_cons, h, ih, List.filter_cons, hb]
    · have hb : (c.1 != peerId && c.2) = false := by
        rcases not_and_or.mp h with h1 | h2
        · simp [bne, not_not.mp h1]
        · simp [Bool.of_not_eq_true h2]
      simp [List.foldl_cons, h, ih, List.filter_cons, hb]

/-- C7: a `ping` is answered on the same connection by a `pong` carrying the
identical timestamp, and a `presence` message is echoed — tagged with the
sender's peer id — to exactly the *other* currently open connections of the
same document; in both cases the server state (document replicas, peer
sync-state table, persistence scheduler, storage) is returned untouched. -/
theorem ping_presence_spec {Doc Cursor Patch : Type}
    (lib : MergeLib Doc Cursor Patch) (ss : ServerState Doc Cursor)
    (slug peerId payload : String) (ts now : Nat) :
    handleMessage lib ss slug peerId (.ping ts) now =
      ([.toSelf (.pong ts)], ss) ∧
    handleMessage lib ss slug peerId (.presence payload) now =
      ((((mapGet ss.clients slug).getD []).filter
          (fun c => c.1 != peerId && c.2)).map
        (fun c => Outbound.toPeer c.1 (WireMsg.presence peerId payload)), ss) := by
  constructor
  · rfl
  · show ((((mapGet ss.clients slug).getD []).foldl (fun acc c => if c.1 ≠ peerId ∧ c.2 then acc ++ [Outbound.toPeer c.1 (WireMsg.presence peerId payload)] else acc) []), ss) = _
    rw [presence_fold]
    simp

/-! ## C2: no patches means no fan-out and no persistence -/

theorem setPeerState_ps {Doc Cursor : Type} (st : StoreState Doc Cursor)
    (slug peerId : String) (ps : PeerState Cursor) :
    (setPeerState st slug peerId ps).peerSyncStates =
      mapSet st.peerSyncStates slug
        (mapSet ((mapGet st.peerSyncStates slug).getD []) peerId ps) := rfl

theorem setPeerState_saveTimers {Doc Cursor : Type} (st : StoreState Doc Cursor)
    (slug peerId : String) (ps : PeerState Cursor) :
    (setPeerState st slug peerId ps).saveTimers = st.saveTimers := rfl

theorem setPeerState_pendingTimers {Doc Cursor : Type} (st : StoreState Doc Cursor)
    (slug peerId : String) (ps : PeerState Cursor) :
    (setPeerState st slug peerId ps).pendingTimers = st.pendingTimers := rfl

theorem setPeerState_storageAutomerge {Doc Cursor : Type} (st : StoreState Doc Cursor)
    (slug peerId : String) (ps : PeerState Cursor) :
    (setPeerState st slug peerId ps).storageAutomerge = st.storageAutomerge := rfl

theorem getPeer_snd_ps {Doc Cursor Patch : Type} (lib : MergeLib Doc Cursor Patch)
    (st : StoreState Doc Cursor) (slug peerId : String) (now : Nat) :
    (getPeerSyncState lib st slug peerId now).2.peerSyncStates =
      mapSet st.peerSyncStates slug
        (mapSet ((mapGet st.peerSyncStates slug).getD []) peerId
          (getPeerSyncState lib st slug peerId now).1) := rfl

theorem getPeer_snd_saveTimers {Doc Cursor Patch : Type}
    (lib : MergeLib Doc Cursor Patch) (st : StoreState Doc Cursor)
    (slug peerId : String) (now : Nat) :
    (getPeerSyncState lib st slug peerId now).2.saveTimers = st.saveTimers := rfl

theorem getPeer_snd_pendingTimers {Doc Cursor Patch : Type}
    (lib : MergeLib Doc Cursor Patch) (st : StoreState Doc Cursor)
    (slug peerId : String) (now : Nat) :
    (getPeerSyncState lib st slug peerId now).2.pendingTimers =
      st.pendingTimers := rfl

theorem getPeer_snd_storageAutomerge {Doc Cursor Patch : Type}
    (lib : MergeLib Doc Cursor Patch) (st : StoreState Doc Cursor)
    (slug peerId : String) (now : Nat) :
    (getPeerSyncState lib st slug peerId now).2.storageAutomerge =
      st.storageAutomerge := rfl

theorem getPeer_lastActivity {Doc Cursor Patch : Type}
    (lib : MergeLib Doc Cursor Patch) (st : StoreState Doc Cursor)
    (slug peerId : String) (now : Nat) :
    (getPeerSyncState lib st slug peerId now).1.lastActivity = now := by
  unfold getPeerSyncState
  cases h : mapGet ((mapGet st.peerSyncStates slug).getD []) peerId <;> simp [h]

theorem fanout_foldl_snd {Doc Cursor Patch : Type}
    (lib : MergeLib Doc Cursor Patch) (newDoc : Doc) (peerId : String)
    (peers : List (String × PeerState Cursor))
    (acc1 : List (String × PeerState Cursor)) (acc2 : List (String × List Nat)) :
    (peers.foldl (fanoutStep lib newDoc peerId) (acc1, acc2)).2 =
      acc2 ++ fanoutMsgs lib newDoc peerId peers := by
  induction peers generalizing acc1 acc2 with
  | nil => simp [fanoutMsgs]
  | cons e t ih =>
    by_cases h : e.1 = peerId
    · simp [fanoutStep, fanoutMsgs, h, ih]
    · cases hg : (lib.generateSync newDoc e.2.syncState).2 with
      | none => simp [fanoutStep, fanoutMsgs, h, beqF h, hg, ih]
      | some m => simp [fanoutStep, fanoutMsgs, h, beqF h, hg, ih]

theorem receiveSync_eq {Doc Cursor Patch : Type}
    (lib : MergeLib Doc Cursor Patch) (st : StoreState Doc Cursor)
    (slug peerId : String) (message : List Nat) (now : Nat) (doc : Doc)
    (hdoc : mapGet st.communities slug = some doc) :
    receiveSyncMessage lib st slug peerId message now =
      (let g := getPeerSyncState lib st slug peerId now
       let r := lib.receiveSync doc g.1.syncState message
       let st2 := { g.2 with communities := mapSet g.2.communities slug r.1 }
       let ps1 : PeerState Cursor := { g.1 with syncState := r.2.1 }
       let st3 := setPeerState st2 slug peerId ps1
       let st4 := if hasPatchesOf r.2.2 then saveCommunity st3 slug else st3
       let g2 := lib.generateSync r.1 ps1.syncState
       let ps2 : PeerState Cursor := { ps1 with syncState := g2.1 }
       let st5 := setPeerState st4 slug peerId ps2
       let communityPeers := (mapGet st5.peerSyncStates slug).getD []
       if hasPatchesOf r.2.2 then
         let f := communityPeers.foldl (fanoutStep lib r.1 peerId) ([], [])
         ((g2.2, f.2), { st5 with peerSyncStates := mapSet st5.peerSyncStates slug f.1 })
       else ((g2.2, []), st5)) := by
  unfold receiveSyncMessage
  rw [hdoc]

/-- C2: when the merge of an inbound delta produces no patches (e.g. a
retransmission), `receiveSyncMessage` returns an empty `broadcastToPeers`
mapping, schedules no persistence (timers and storage untouched), and leaves
the sync cursor of every peer other than the sender unchanged (as well as
every other document's peer collection); only when the merge produced at
least one patch is the catch-up fan-out computed — one `generateSync` delta
per other tracked peer. -/
theorem recv_no_patch_no_fanout {Doc Cursor Patch : Type}
    (lib : MergeLib Doc Cursor Patch) (st : StoreState Doc Cursor)
    (slug peerId : String) (message : List Nat) (now : Nat) (doc : Doc)
    (hdoc : mapGet st.communities slug = some doc) :
    (hasPatchesOf (lib.receiveSync doc
        (getPeerSyncState lib st slug peerId now).1.syncState message).2.2 = false →
      (receiveSyncMessage lib st slug peerId message now).1.2 = [] ∧
      (receiveSyncMessage lib st slug peerId message now).2.saveTimers =
        st.saveTimers ∧
      (receiveSyncMessage lib st slug peerId message now).2.pendingTimers =
        st.pendingTimers ∧
      (receiveSyncMessage lib st slug peerId message now).2.storageAutomerge =
        st.storageAutomerge ∧
      (∀ s, s ≠ slug →
        mapGet (receiveSyncMessage lib st slug peerId message now).2.peerSyncStates s =
          mapGet st.peerSyncStates s) ∧
      (∀ otherId, otherId ≠ peerId →
        mapGet ((mapGet (receiveSyncMessage lib st slug peerId message now).2.peerSyncStates
            slug).getD []) otherId =
          mapGet ((mapGet st.peerSyncStates slug).getD []) otherId)) ∧
    (hasPatchesOf (lib.receiveSync doc
        (getPeerSyncState lib st slug peerId now).1.syncState message).2.2 = true →
      (receiveSyncMessage lib st slug peerId message now).1.2 =
        fanoutMsgs lib
          (lib.receiveSync doc
            (getPeerSyncState lib st slug peerId now).1.syncState message).1
          peerId
          (mapSet ((mapGet st.peerSyncStates slug).getD []) peerId
            ⟨(lib.generateSync
                (lib.receiveSync doc
                  (getPeerSyncState lib st slug peerId now).1.syncState message).1
                (lib.receiveSync doc
                  (getPeerSyncState lib st slug peerId now).1.syncState message).2.1).1,
              now⟩)) := by
  constructor
  · intro hnp
    rw [receiveSync_eq lib st slug peerId message now doc hdoc]
    refine ⟨?_, ?_, ?_, ?_, ?_, ?_⟩
    · simp [hnp]
    · simp [hnp, setPeerState_saveTimers, getPeer_snd_saveTimers]
    · simp [hnp, setPeerState_pendingTimers, getPeer_snd_pendingTimers]
    · simp [hnp, setPeerState_storageAutomerge, getPeer_snd_storageAutomerge]
    · intro s hs
      simp only [hnp, Bool.false_eq_true, if_false, setPeerState_ps,
        getPeer_snd_ps]
      rw [mapGet_set_ne _ slug s _ hs, mapGet_set_ne _ slug s _ hs,
        mapGet_set_ne _ slug s _ hs]
    · intro otherId hother
      simp only [hnp, Bool.false_eq_true, if_false, setPeerState_ps,
        getPeer_snd_ps]
      rw [mapGet_set_self]
      rw [show ∀ (x : List (String × PeerState Cursor)), (some x).getD [] = x from fun x => rfl]
      rw [mapGet_set_self]
      rw [show ∀ (x : List (String × PeerState Cursor)), (some x).getD [] = x from fun x => rfl]
      rw [mapSet_mapSet]
      rw [mapGet_set_self]
      rw [show ∀ (x : List (String × PeerState Cursor)), (some x).getD [] = x from fun x => rfl]
      rw [mapSet_mapSet]
      exact mapGet_set_ne _ peerId otherId _ hother
  · intro hp
    rw [receiveSync_eq lib st slug peerId message now doc hdoc]
    simp only [hp, if_true, setPeerState_ps, getPeer_snd_ps,
      saveCommunity_peerSyncStates]
    rw [fanout_foldl_snd]
    simp only [List.nil_append]
    rw [mapGet_set_self]
    rw [show ∀ (x : List (String × PeerState Cursor)), (some x).getD [] = x from fun x => rfl]
    rw [mapGet_set_self]
    rw [show ∀ (x : List (String × PeerState Cursor)), (some x).getD [] = x from fun x => rfl]
    rw [mapSet_mapSet]
    rw [mapGet_set_self]
    rw [show ∀ (x : List (String × PeerState Cursor)), (some x).getD [] = x from fun x => rfl]
    rw [mapSet_mapSet]
    rw [show ({ syncState := (lib.generateSync (lib.receiveSync doc (getPeerSyncState lib st slug peerId now).1.syncState message).1 (lib.receiveSync doc (getPeerSyncState lib st slug peerId now).1.syncState message).2.1).1, lastActivity := (getPeerSyncState lib st slug peerId now).1.lastActivity } : PeerState Cursor) = ⟨(lib.generateSync (lib.receiveSync doc (getPeerSyncState lib st slug peerId now).1.syncState message).1 (lib.receiveSync doc (getPeerSyncState lib st slug peerId now).1.syncState message).2.1).1, now⟩ from by rw [getPeer_lastActivity]]

theorem recv_no_patch_no_fanout_witness :
    (receiveSyncMessage trivLib stPeers "garden" "p1" [9] 7).1.2 = [] ∧
    (receiveSyncMessage trivLib stPeers "garden" "p1" [9] 7).2.pendingTimers =
      stPeers.pendingTimers ∧
    mapGet ((mapGet (receiveSyncMessage trivLib stPeers "garden" "p1" [9]
        7).2.peerSyncStates "garden").getD []) "p2" =
      mapGet ((mapGet stPeers.peerSyncStates "garden").getD []) "p2" :=
  ⟨((recv_no_patch_no_fanout trivLib stPeers "garden" "p1" [9] 7 trivDoc
      rfl).1 rfl).1,
    ((recv_no_patch_no_fanout trivLib stPeers "garden" "p1" [9] 7 trivDoc
      rfl).1 rfl).2.2.1,
    ((recv_no_patch_no_fanout trivLib stPeers "garden" "p1" [9] 7 trivDoc
      rfl).1 rfl).2.2.2.2.2 "p2" (by decide)⟩

/-! ## C1: load with cache, canonical-binary and legacy-JSON fallback -/

theorem load_eq_cached {Doc Cursor Patch : Type} (lib : MergeLib Doc Cursor Patch)
    (st : StoreState Doc Cursor) (slug : String) (doc : Doc)
    (h : mapGet st.communities slug = some doc) :
    loadCommunity lib st slug = (some doc, st) := by
  unfold loadCommunity
  rw [h]

theorem load_eq_not_cached {Doc Cursor Patch : Type} (lib : MergeLib Doc Cursor Patch)
    (st : StoreState Doc Cursor) (slug : String)
    (h : mapGet st.communities slug = none) :
    loadCommunity lib st slug =
      (match (match mapGet st.storageAutomerge slug with
              | some buffer => lib.load buffer
              | none => none) with
       | some doc =>
         (some doc, { st with communities := mapSet st.communities slug doc })
       | none =>
         match mapGet st.storageJson slug with
         | some data =>
           (some (jsonToAutomerge lib data),
             saveCommunity { st with communities := mapSet st.communities slug (jsonToAutomerge lib data) } slug)
         | none => (none, st)) := by
  unfold loadCommunity
  rw [h]

theorem find?_append_right {α : Type} (p : α → Bool) (l1 l2 : List α)
    (hall : ∀ x ∈ l1, p x = false) :
    (l1 ++ l2).find? p = l2.find? p := by
  induction l1 with
  | nil => rfl
  | cons a t ih =>
    rw [List.cons_append]
    have ha : p a = false := hall a (List.mem_cons_self a t)
    rw [List.find?_cons, ha]
    exact ih (fun x hx => hall x (List.mem_cons_of_mem a hx))

theorem clearedPending_subset {Doc Cursor : Type} (st : StoreState Doc Cursor)
    (slug : String) : ∀ p ∈ clearedPending st slug, p ∈ st.pendingTimers := by
  intro p hp
  unfold clearedPending at hp
  cases h : mapGet st.saveTimers slug with
  | some t =>
    rw [h] at hp
    exact (List.mem_filter.mp hp).1
  | none =>
    rw [h] at hp
    exact hp

/-- Firing the timer armed by `saveCommunity` writes the canonical binary of
the replica cached *at firing time* and consumes the timer. -/
theorem fire_after_save {Doc Cursor Patch : Type} (lib : MergeLib Doc Cursor Patch)
    (st1 : StoreState Doc Cursor) (slug : String) (d : Doc)
    (hdoc : mapGet st1.communities slug = some d)
    (hfresh : ∀ p ∈ st1.pendingTimers, p.id < st1.nextTimerId) :
    mapGet (fireSaveTimer lib (saveCommunity st1 slug)
        st1.nextTimerId).storageAutomerge slug = some (lib.save d) ∧
    (fireSaveTimer lib (saveCommunity st1 slug) st1.nextTimerId).pendingTimers =
      (saveCommunity st1 slug).pendingTimers.filter
        (fun p => p.id ≠ st1.nextTimerId) := by
  have hfind : (clearedPending st1 slug ++ [⟨st1.nextTimerId, slug, saveDebounceMs⟩] : List PendingTimer).find? (fun p => p.id == st1.nextTimerId) = some ⟨st1.nextTimerId, slug, saveDebounceMs⟩ := by
    rw [find?_append_right]
    · simp [List.find?_cons]
    · intro p hp
      have hlt := hfresh p (clearedPending_subset st1 slug p hp)
      simp [Nat.ne_of_lt hlt]
  rw [saveCommunity_of_resident st1 slug d hdoc]
  unfold fireSaveTimer
  dsimp only
  rw [hfind]
  dsimp only
  rw [hdoc]
  exact ⟨mapGet_set_self .., rfl⟩

/-- C1: `loadCommunity` returns the cached replica when resident; otherwise
deserializes the canonical `.automerge` binary when present and readable
(canonical form takes priority over the legacy form), populating the cache;
otherwise converts a legacy `.json` record through the single
"Import from JSON" change (`jsonToAutomerge`), populates the cache, and
re-persists canonically — a save timer is armed whose firing writes
`lib.save` of the migrated replica; when no record exists at all, it
returns `none` with the state untouched.  On every successful load the cache
holds the returned replica. -/
theorem load_spec {Doc Cursor Patch : Type} (lib : MergeLib Doc Cursor Patch)
    (st : StoreState Doc Cursor) (slug : String) :
    (∀ doc, mapGet st.communities slug = some doc →
      loadCommunity lib st slug = (some doc, st)) ∧
    (∀ buf doc, mapGet st.communities slug = none →
      mapGet st.storageAutomerge slug = some buf → lib.load buf = some doc →
      loadCommunity lib st slug =
        (some doc, { st with communities := mapSet st.communities slug doc })) ∧
    (∀ data, mapGet st.communities slug = none →
      (mapGet st.storageAutomerge slug = none ∨
        ∃ buf, mapGet st.storageAutomerge slug = some buf ∧ lib.load buf = none) →
      mapGet st.storageJson slug = some data →
      (∀ p ∈ st.pendingTimers, p.id < st.nextTimerId) →
      (loadCommunity lib st slug).1 = some (jsonToAutomerge lib data) ∧
      mapGet (loadCommunity lib st slug).2.communities slug =
        some (jsonToAutomerge lib data) ∧
      mapGet (loadCommunity lib st slug).2.saveTimers slug =
        some st.nextTimerId ∧
      (⟨st.nextTimerId, slug, saveDebounceMs⟩ : PendingTimer) ∈
        (loadCommunity lib st slug).2.pendingTimers ∧
      mapGet (fireSaveTimer lib (loadCommunity lib st slug).2
          st.nextTimerId).storageAutomerge slug =
        some (lib.save (jsonToAutomerge lib data))) ∧
    (mapGet st.communities slug = none →
      (mapGet st.storageAutomerge slug = none ∨
        ∃ buf, mapGet st.storageAutomerge slug = some buf ∧ lib.load buf = none) →
      mapGet st.storageJson slug = none →
      loadCommunity lib st slug = (none, st)) := by
  refine ⟨?_, ?_, ?_, ?_⟩
  · intro doc h
    exact load_eq_cached lib st slug doc h
  · intro buf doc h hbin hload
    rw [load_eq_not_cached lib st slug h, hbin]
    simp [hload]
  · intro data h hbin hjson hfresh
    have heq : loadCommunity lib st slug =
        (some (jsonToAutomerge lib data),
          saveCommunity { st with communities := mapSet st.communities slug (jsonToAutomerge lib data) } slug) := by
      rw [load_eq_not_cached lib st slug h]
      rcases hbin with hb | ⟨buf, hb, hl⟩
      · rw [hb]
        simp [hjson]
      · rw [hb]
        simp [hl, hjson]
    rw [heq]
    refine ⟨rfl, (saveCommunity_after_set st slug _).1,
      (saveCommunity_after_set st slug _).2.1,
      (saveCommunity_after_set st slug _).2.2, ?_⟩
    exact (fire_after_save lib
      ({ st with communities := mapSet st.communities slug (jsonToAutomerge lib data) })
      slug (jsonToAutomerge lib data) (mapGet_set_self ..) hfresh).1
  · intro h hbin hjson
    rw [load_eq_not_cached lib st slug h]
    rcases hbin with hb | ⟨buf, hb, hl⟩
    · rw [hb]
      simp [hjson]
    · rw [hb]
      simp [hl, hjson]

def docJ : CommunityDoc := ⟨⟨"Garden", "garden", "2024-01-01T00:00:00Z"⟩, []⟩

def stJson : StoreState CommunityDoc Nat :=
  ⟨[], [], [], [], 0, [], [("garden", docJ)]⟩

def stBinary : StoreState CommunityDoc Nat :=
  ⟨[], [], [], [], 0, [("garden", [1, 2, 3])], [("garden", docJ)]⟩

theorem load_spec_witness :
    loadCommunity trivLib stResident "garden" = (some trivDoc, stResident) ∧
    loadCommunity trivLib stBinary "garden" =
      (some trivDoc, { stBinary with communities := mapSet stBinary.communities "garden" trivDoc }) ∧
    (loadCommunity trivLib stJson "garden").1 =
      some (jsonToAutomerge trivLib docJ) ∧
    mapGet (fireSaveTimer trivLib (loadCommunity trivLib stJson "garden").2
        0).storageAutomerge "garden" =
      some (trivLib.save (jsonToAutomerge trivLib docJ)) ∧
    loadCommunity trivLib stEmpty "garden" = (none, stEmpty) :=
  ⟨(load_spec trivLib stResident "garden").1 trivDoc rfl,
    (load_spec trivLib stBinary "garden").2.1 [1, 2, 3] trivDoc rfl rfl rfl,
    ((load_spec trivLib stJson "garden").2.2.1 docJ rfl (Or.inl rfl) rfl
      (by simp [stJson])).1,
    ((load_spec trivLib stJson "garden").2.2.1 docJ rfl (Or.inl rfl) rfl
      (by simp [stJson])).2.2.2.2,
    (load_spec trivLib stEmpty "garden").2.2.2 rfl (Or.inl rfl) rfl⟩

/-! ## C3: debounced persistence coalescing -/

/-- The timers pending for one document. -/
def pendingFor {Doc Cursor : Type} (st : StoreState Doc Cursor) (slug : String) :
    List PendingTimer :=
  st.pendingTimers.filter (fun p => p.slug == slug)

/-- Reachable-state invariant of the debounce machinery: every pending timer
is the one recorded in `saveTimers` for its slug, recorded timer ids are
below the fresh-id counter, and pending timer ids are pairwise distinct. -/
def TimerInv {Doc Cursor : Type} (st : StoreState Doc Cursor) : Prop :=
  (∀ p ∈ st.pendingTimers, mapGet st.saveTimers p.slug = some p.id) ∧
  (∀ s i, mapGet st.saveTimers s = some i → i < st.nextTimerId) ∧
  st.pendingTimers.Pairwise (fun a b => a.id ≠ b.id)

theorem timerInv_at_most_one {Doc Cursor : Type} (st : StoreState Doc Cursor)
    (hInv : TimerInv st) (slug : String) : (pendingFor st slug).length ≤ 1 := by
  have hpw : (pendingFor st slug).Pairwise (fun a b => a.id ≠ b.id) :=
    List.Pairwise.sublist (List.filter_sublist _) hInv.2.2
  cases hl : pendingFor st slug with
  | nil => simp
  | cons a t =>
    cases t with
    | nil => simp
    | cons b t2 =>
      exfalso
      rw [hl] at hpw
      have hne : a.id ≠ b.id :=
        (List.pairwise_cons.mp hpw).1 b (List.mem_cons_self b t2)
      have hamem : a ∈ pendingFor st slug := by
        rw [hl]; exact List.mem_cons_self ..
      have hbmem : b ∈ pendingFor st slug := by
        rw [hl]; simp
      unfold pendingFor at hamem hbmem
      have ha := List.mem_filter.mp hamem
      have hb := List.mem_filter.mp hbmem
      have h1 := hInv.1 a ha.1
      have h2 := hInv.1 b hb.1
      rw [eq_of_beq ha.2] at h1
      rw [eq_of_beq hb.2] at h2
      rw [h1] at h2
      injection h2 with h2
      exact hne h2

theorem saveCommunity_timerInv {Doc Cursor : Type} (st : StoreState Doc Cursor)
    (slug : String) (hInv : TimerInv st) : TimerInv (saveCommunity st slug) := by
  cases hdoc : mapGet st.communities slug with
  | none =>
    unfold saveCommunity
    rw [hdoc]
    exact hInv
  | some d =>
    rw [saveCommunity_of_resident st slug d hdoc]
    obtain ⟨h1, h2, h4⟩ := hInv
    refine ⟨?_, ?_, ?_⟩
    · intro p hp
      rcases List.mem_append.mp hp with hp1 | hp2
      · have hpin : p ∈ st.pendingTimers := clearedPending_subset st slug p hp1
        have hslugne : p.slug ≠ slug := by
          intro hc
          have hgets : mapGet st.saveTimers slug = some p.id := hc ▸ h1 p hpin
          unfold clearedPending at hp1
          rw [hgets] at hp1
          have := (List.mem_filter.mp hp1).2
          simp at this
        show mapGet (mapSet st.saveTimers slug st.nextTimerId) p.slug = some p.id
        rw [mapGet_set_ne st.saveTimers slug p.slug st.nextTimerId hslugne]
        exact h1 p hpin
      · have hp3 : p = ⟨st.nextTimerId, slug, saveDebounceMs⟩ := by simpa using hp2
        subst hp3
        show mapGet (mapSet st.saveTimers slug st.nextTimerId) slug =
          some st.nextTimerId
        exact mapGet_set_self ..
    · intro s i hsi
      show i < st.nextTimerId + 1
      by_cases hs : s = slug
      · subst hs
        rw [mapGet_set_self] at hsi
        injection hsi with hsi
        rw [← hsi]
        exact Nat.lt_succ_self _
      · rw [mapGet_set_ne st.saveTimers slug s st.nextTimerId hs] at hsi
        exact Nat.lt_succ_of_lt (h2 s i hsi)
    · rw [List.pairwise_append]
      refine ⟨?_, by simp, ?_⟩
      · unfold clearedPending
        cases hg : mapGet st.saveTimers slug with
        | some t => exact List.Pairwise.sublist (List.filter_sublist _) h4
        | none => exact h4
      · intro a ha b hb
        have hb2 : b = ⟨st.nextTimerId, slug, saveDebounceMs⟩ := by simpa using hb
        subst hb2
        have hain := clearedPending_subset st slug a ha
        exact Nat.ne_of_lt (h2 a.slug a.id (h1 a hain))

theorem saveCommunity_pendingFor {Doc Cursor : Type} (st : StoreState Doc Cursor)
    (slug : String) (d : Doc) (hInv : TimerInv st)
    (hdoc : mapGet st.communities slug = some d) :
    pendingFor (saveCommunity st slug) slug =
      [⟨st.nextTimerId, slug, saveDebounceMs⟩] := by
  rw [saveCommunity_of_resident st slug d hdoc]
  unfold pendingFor
  dsimp only
  rw [List.filter_append]
  have hcl : (clearedPending st slug).filter (fun p => p.slug == slug) = [] := by
    rw [List.filter_eq_nil_iff]
    intro p hp hc
    have hpslug : p.slug = slug := eq_of_beq hc
    have hpin := clearedPending_subset st slug p hp
    have hget : mapGet st.saveTimers slug = some p.id := hpslug ▸ hInv.1 p hpin
    unfold clearedPending at hp
    rw [hget] at hp
    have := (List.mem_filter.mp hp).2
    simp at this
  rw [hcl]
  simp

def foldChanges {Doc Cursor Patch : Type} (lib : MergeLib Doc Cursor Patch)
    (doc : Doc) (muts : List (String × ShapeData)) : Doc :=
  muts.foldl
    (fun d m => lib.change d ("Update shape " ++ m.1) (updateShapeMutator m.1 m.2))
    doc

/-- A burst of `updateShape` mutations on one document, back to back (no
timer fires in between — all within the quiet period). -/
def applyUpdates {Doc Cursor Patch : Type} (lib : MergeLib Doc Cursor Patch)
    (st : StoreState Doc Cursor) (slug : String)
    (muts : List (String × ShapeData)) : StoreState Doc Cursor :=
  muts.foldl (fun s m => updateShape lib s slug m.1 m.2) st

theorem updateShape_timer_spec {Doc Cursor Patch : Type}
    (lib : MergeLib Doc Cursor Patch) (st : StoreState Doc Cursor)
    (slug shapeId : String) (data : ShapeData) (doc : Doc)
    (hInv : TimerInv st) (hdoc : mapGet st.communities slug = some doc) :
    TimerInv (updateShape lib st slug shapeId data) ∧
    mapGet (updateShape lib st slug shapeId data).communities slug =
      some (lib.change doc ("Update shape " ++ shapeId)
        (updateShapeMutator shapeId data)) ∧
    pendingFor (updateShape lib st slug shapeId data) slug =
      [⟨st.nextTimerId, slug, saveDebounceMs⟩] := by
  have hu : updateShape lib st slug shapeId data =
      saveCommunity { st with communities := mapSet st.communities slug (lib.change doc ("Update shape " ++ shapeId) (updateShapeMutator shapeId data)) } slug := by
    unfold updateShape
    rw [hdoc]
  have hInv1 : TimerInv ({ st with communities := mapSet st.communities slug (lib.change doc ("Update shape " ++ shapeId) (updateShapeMutator shapeId data)) } : StoreState Doc Cursor) := hInv
  rw [hu]
  refine ⟨saveCommunity_timerInv _ slug hInv1, ?_, ?_⟩
  · rw [saveCommunity_communities]
    exact mapGet_set_self ..
  · exact saveCommunity_pendingFor _ slug _ hInv1 (mapGet_set_self ..)

theorem applyUpdates_spec {Doc Cursor Patch : Type}
    (lib : MergeLib Doc Cursor Patch) (slug : String) :
    ∀ (muts : List (String × ShapeData)) (st : StoreState Doc Cursor) (doc : Doc),
      TimerInv st → mapGet st.communities slug = some doc → muts ≠ [] →
      TimerInv (applyUpdates lib st slug muts) ∧
      mapGet (applyUpdates lib st slug muts).communities slug =
        some (foldChanges lib doc muts) ∧
      ∃ n, pendingFor (applyUpdates lib st slug muts) slug =
        [⟨n, slug, saveDebounceMs⟩] := by
  intro muts
  induction muts with
  | nil =>
    intro st doc _ _ hne
    exact absurd rfl hne
  | cons m rest ih =>
    intro st doc hInv hdoc _
    have hstep := updateShape_timer_spec lib st slug m.1 m.2 doc hInv hdoc
    by_cases hr : rest = []
    · subst hr
      exact ⟨hstep.1, hstep.2.1, st.nextTimerId, hstep.2.2⟩
    · exact ih (updateShape lib st slug m.1 m.2)
        (lib.change doc ("Update shape " ++ m.1) (updateShapeMutator m.1 m.2))
        hstep.1 hstep.2.1 hr

theorem find?_id_unique (l : List PendingTimer) (t : PendingTimer)
    (hw : l.Pairwise (fun a b => a.id ≠ b.id)) (ht : t ∈ l) :
    l.find? (fun p => p.id == t.id) = some t := by
  induction l with
  | nil => cases ht
  | cons a rest ih =>
    rcases List.mem_cons.mp ht with rfl | hmem
    · rw [List.find?_cons]
      simp
    · have hne : a.id ≠ t.id := (List.pairwise_cons.mp hw).1 t hmem
      rw [List.find?_cons]
      rw [show (a.id == t.id) = false by simp [hne]]
      exact ih (List.pairwise_cons.mp hw).2 hmem

theorem fire_pending_single {Doc Cursor Patch : Type}
    (lib : MergeLib Doc Cursor Patch) (st' : StoreState Doc Cursor)
    (slug : String) (n : Nat) (d : Doc) (hInv : TimerInv st')
    (hpf : pendingFor st' slug = [⟨n, slug, saveDebounceMs⟩])
    (hdoc : mapGet st'.communities slug = some d) :
    mapGet (fireSaveTimer lib st' n).storageAutomerge slug = some (lib.save d) ∧
    pendingFor (fireSaveTimer lib st' n) slug = [] := by
  have hmem : (⟨n, slug, saveDebounceMs⟩ : PendingTimer) ∈ st'.pendingTimers := by
    have hin : (⟨n, slug, saveDebounceMs⟩ : PendingTimer) ∈ pendingFor st' slug := by
      rw [hpf]
      simp
    unfold pendingFor at hin
    exact (List.mem_filter.mp hin).1
  have hfind : st'.pendingTimers.find? (fun p => p.id == n) =
      some ⟨n, slug, saveDebounceMs⟩ :=
    find?_id_unique st'.pendingTimers ⟨n, slug, saveDebounceMs⟩ hInv.2.2 hmem
  unfold fireSaveTimer
  rw [hfind]
  dsimp only
  rw [hdoc]
  constructor
  · exact mapGet_set_self ..
  · show (st'.pendingTimers.filter (fun p => p.id ≠ n)).filter
      (fun p => p.slug == slug) = []
    rw [List.filter_eq_nil_iff]
    intro p hp hc
    have hmem2 := List.mem_filter.mp hp
    have hpp : p ∈ pendingFor st' slug := by
      unfold pendingFor
      rw [List.mem_filter]
      exact ⟨hmem2.1, hc⟩
    rw [hpf] at hpp
    have hpeq : p = ⟨n, slug, saveDebounceMs⟩ := by simpa using hpp
    have hid := hmem2.2
    rw [hpeq] at hid
    simp at hid

/-- C3: in every invariant state there is at most one pending persistence
timer per document; the debounced save cancels the existing timer and arms a
single fresh one with the fixed 2000 ms quiet period, preserving the
invariant; and a burst of N back-to-back mutations leaves exactly one armed
timer, whose firing performs the single durable write — serializing the
replica cached at firing time, i.e. the state after the Nth mutation — and
consumes the timer. -/
theorem debounce_spec {Doc Cursor Patch : Type} (lib : MergeLib Doc Cursor Patch)
    (st : StoreState Doc Cursor) (slug : String) (hInv : TimerInv st) :
    (pendingFor st slug).length ≤ 1 ∧
    saveDebounceMs = 2000 ∧
    TimerInv (saveCommunity st slug) ∧
    (∀ d, mapGet st.communities slug = some d →
      pendingFor (saveCommunity st slug) slug =
        [⟨st.nextTimerId, slug, saveDebounceMs⟩]) ∧
    (∀ (muts : List (String × ShapeData)) (doc : Doc),
      mapGet st.communities slug = some doc → muts ≠ [] →
      ∃ n, pendingFor (applyUpdates lib st slug muts) slug =
          [⟨n, slug, saveDebounceMs⟩] ∧
        mapGet (applyUpdates lib st slug muts).communities slug =
          some (foldChanges lib doc muts) ∧
        mapGet (fireSaveTimer lib (applyUpdates lib st slug muts)
            n).storageAutomerge slug =
          some (lib.save (foldChanges lib doc muts)) ∧
        pendingFor (fireSaveTimer lib (applyUpdates lib st slug muts) n) slug =
          []) := by
  refine ⟨timerInv_at_most_one st hInv slug, rfl,
    saveCommunity_timerInv st slug hInv, ?_, ?_⟩
  · intro d hd
    exact saveCommunity_pendingFor st slug d hInv hd
  · intro muts doc hdoc hne
    obtain ⟨hInv2, hcomm, n, hpf⟩ :=
      applyUpdates_spec lib slug muts st doc hInv hdoc hne
    refine ⟨n, hpf, hcomm, ?_, ?_⟩
    · exact (fire_pending_single lib _ slug n _ hInv2 hpf hcomm).1
    · exact (fire_pending_single lib _ slug n _ hInv2 hpf hcomm).2

theorem stResident_timerInv : TimerInv stResident := by
  refine ⟨?_, ?_, ?_⟩
  · intro p hp
    cases hp
  · intro s i hsi
    simp [stResident] at hsi
  · exact List.Pairwise.nil

theorem debounce_spec_witness :
    (pendingFor stResident "garden").length ≤ 1 ∧
    (∃ n, pendingFor (applyUpdates trivLib stResident "garden"
          [("s1", shapeA), ("s1", shapeA)]) "garden" =
        [⟨n, "garden", saveDebounceMs⟩] ∧
      mapGet (applyUpdates trivLib stResident "garden"
          [("s1", shapeA), ("s1", shapeA)]).communities "garden" =
        some (foldChanges trivLib trivDoc [("s1", shapeA), ("s1", shapeA)]) ∧
      mapGet (fireSaveTimer trivLib (applyUpdates trivLib stResident "garden"
          [("s1", shapeA), ("s1", shapeA)]) n).storageAutomerge "garden" =
        some (trivLib.save (foldChanges trivLib trivDoc
          [("s1", shapeA), ("s1", shapeA)])) ∧
      pendingFor (fireSaveTimer trivLib (applyUpdates trivLib stResident
          "garden" [("s1", shapeA), ("s1", shapeA)]) n) "garden" = []) :=
  ⟨(debounce_spec trivLib stResident "garden" stResident_timerInv).1,
    (debounce_spec trivLib stResident "garden" stResident_timerInv).2.2.2.2
      [("s1", shapeA), ("s1", shapeA)] trivDoc rfl (by simp)⟩
